import Mathlib

/-!
Verification of the self-learning pipeline and long-term memory store of the
AIRI repository (`packages/stage-ui/src/composables/use-self-learning.ts`,
`packages/stage-ui/src/stores/modules/self-learning.ts`, and the long-term
memory store `memory-long-term.ts`).

The embedding is shallow: pure functions of the TypeScript source are
translated into executable Lean functions.  JavaScript `number` timestamps
(millisecond epoch values produced by `Date.now()`) are modelled as `Int`;
confidence scores (IEEE doubles in `[0,1]` in the source) are modelled as
exact rationals `ℚ`, which preserves every comparison the code performs at
the small magnitudes involved.  External collaborators (the web-search
backend, the Jina page fetcher via `ofetch`, the LLM call `generateText`
together with its JSON-array extraction) are modelled as oracle functions
that either produce a value or throw (`Except String`), exactly at the
boundaries where the source performs the corresponding `await` calls.
-/

namespace Airi

/-! ## String primitives (JavaScript semantics)

`String.prototype.toLowerCase`, `trim`, `slice(0, n)`, `includes` and
`split(/\s+/)` are modelled on the underlying character list.  `split(/\s+/)`
splits on maximal runs of whitespace and keeps the empty tokens that
JavaScript produces at the boundaries (e.g. `" a".split(/\s+/) = ["", "a"]`,
`"".split(/\s+/) = [""]`). -/

/-- Whitespace characters matched by the JavaScript regex class `\s`
(restricted to the ASCII range, which covers all inputs considered here). -/
def jsIsSpace (c : Char) : Bool :=
  c == ' ' || c == '\t' || c == '\n' || c == '\r' || c == '\x0b' || c == '\x0c'

/-- `String.prototype.toLowerCase` on the character list (ASCII lowering). -/
def jsLowerData (s : String) : List Char :=
  s.data.map Char.toLower

/-- `String.prototype.trim`: strip whitespace from both ends. -/
def jsTrim (s : String) : String :=
  ⟨((s.data.dropWhile jsIsSpace).reverse.dropWhile jsIsSpace).reverse⟩

/-- `s.slice(0, n)` for a non-negative literal `n`. -/
def strTake (s : String) (n : Nat) : String :=
  ⟨s.data.take n⟩

/-- Does `n` occur at the start of `h`?  (Helper for `containsSeq`.) -/
def startsWith : List Char → List Char → Bool
  | [], _ => true
  | _ :: _, [] => false
  | a :: as, b :: bs => a == b && startsWith as bs

/-- `h.includes(n)` of JavaScript: does the character sequence `n` occur
contiguously inside `h`? -/
def containsSeq (n : List Char) : List Char → Bool
  | [] => n.isEmpty
  | c :: cs => startsWith n (c :: cs) || containsSeq n cs

/-- The tail-recursive worker of `split(/\s+/)`: `acc` holds the current
token reversed, `prevWs` records whether the previous character was
whitespace (so that a run of whitespace produces a single split point). -/
def splitWsGo : List Char → List Char → Bool → List (List Char)
  | [], acc, _ => [acc.reverse]
  | c :: cs, acc, prevWs =>
    if jsIsSpace c then
      if prevWs then splitWsGo cs [] true
      else acc.reverse :: splitWsGo cs [] true
    else splitWsGo cs (c :: acc) false

/-- `s.split(/\s+/)` on a character list. -/
def splitWsChars (l : List Char) : List (List Char) :=
  splitWsGo l [] false

/-! ## Long-term memory store (`memory-long-term.ts`) -/

/-- The `source` field of a memory entry: `'manual' | 'self-learning'`. -/
inductive MemorySource where
  | manual
  | selfLearning
deriving DecidableEq, Repr, Inhabited

/-- A persisted long-term memory entry (interface `MemoryEntry`). -/
structure MemoryEntry where
  id : String
  content : String
  tags : List String
  source : MemorySource
  confidence : ℚ
  useCount : Nat
  createdAt : Int
  updatedAt : Int
deriving DecidableEq, Repr, Inhabited

/-- The entry literal built by `addEntry` (the `nanoid()` id and the
`Date.now()` reading are supplied by the caller of the model). -/
def mkEntry (id content : String) (tags : List String) (source : MemorySource)
    (now : Int) : MemoryEntry :=
  { id := id
    content := jsTrim content
    tags := tags
    source := source
    confidence := if source = MemorySource.selfLearning then 0.6 else 0.8
    useCount := 0
    createdAt := now
    updatedAt := now }

/-- `addEntry`: appends the new entry (`entries.value = [...entries.value, entry]`). -/
def addEntry (entries : List MemoryEntry) (id content : String)
    (tags : List String) (source : MemorySource) (now : Int) : List MemoryEntry :=
  entries ++ [mkEntry id content tags source now]

/-- `boostConfidence(id, delta = 0.05)`: clamp the raised confidence at 1,
bump `useCount`, refresh `updatedAt`; entries with other ids are unchanged. -/
def boostConfidence (entries : List MemoryEntry) (id : String) (delta : ℚ)
    (now : Int) : List MemoryEntry :=
  entries.map fun e =>
    if e.id = id then
      { e with confidence := min 1 (e.confidence + delta)
               useCount := e.useCount + 1
               updatedAt := now }
    else e

/-- One week in milliseconds (`7 * 24 * 60 * 60 * 1000`). -/
def oneWeekMs : Int := 7 * 24 * 60 * 60 * 1000

/-- The per-entry decay map of `decayConfidence`:
`confidence := max(0, confidence - decayRate * ageWeeks)` with
`ageWeeks = (now - updatedAt) / oneWeekMs`, the exact rational quotient of
the two integer millisecond quantities (`Rat.divInt a b` is the rational
`a / b`; see the second conjunct of `C7_decay_correct`). -/
def decayedEntry (decayRate : ℚ) (now : Int) (e : MemoryEntry) : MemoryEntry :=
  let ageWeeks : ℚ := Rat.divInt (now - e.updatedAt) oneWeekMs
  { e with confidence := max 0 (e.confidence - decayRate * ageWeeks) }

/-- `decayConfidence(decayRate = 0.02, pruneBelow = 0.05)`: decay every
entry, then keep only those with `confidence >= pruneBelow`. -/
def decayConfidence (entries : List MemoryEntry) (decayRate pruneBelow : ℚ)
    (now : Int) : List MemoryEntry :=
  (entries.map (decayedEntry decayRate now)).filter fun e =>
    decide (pruneBelow ≤ e.confidence)

/-- The comparator of `sortedEntries` as a non-strict relation:
`rankLe a b` iff the JavaScript comparator orders `a` no later than `b`
(`b.confidence - a.confidence` when confidences differ, otherwise
`b.updatedAt - a.updatedAt`, ascending by comparator value). -/
def rankLe (a b : MemoryEntry) : Prop :=
  b.confidence < a.confidence ∨ (a.confidence = b.confidence ∧ b.updatedAt ≤ a.updatedAt)

instance : DecidableRel rankLe := fun a b =>
  decidable_of_iff
    (b.confidence < a.confidence ∨ (a.confidence = b.confidence ∧ b.updatedAt ≤ a.updatedAt))
    Iff.rfl

instance : IsTotal MemoryEntry rankLe where
  total a b := by
    unfold rankLe
    rcases lt_trichotomy a.confidence b.confidence with h | h | h
    · exact Or.inr (Or.inl h)
    · rcases le_total b.updatedAt a.updatedAt with h' | h'
      · exact Or.inl (Or.inr ⟨h, h'⟩)
      · exact Or.inr (Or.inr ⟨h.symm, h'⟩)
    · exact Or.inl (Or.inl h)

instance : IsTrans MemoryEntry rankLe where
  trans a b c hab hbc := by
    unfold rankLe at *
    rcases hab with h₁ | ⟨h₁, h₁'⟩
    · rcases hbc with h₂ | ⟨h₂, h₂'⟩
      · exact Or.inl (h₂.trans h₁)
      · exact Or.inl (h₂ ▸ h₁)
    · rcases hbc with h₂ | ⟨h₂, h₂'⟩
      · exact Or.inl (h₁ ▸ h₂)
      · exact Or.inr ⟨h₁.trans h₂, h₂'.trans h₁'⟩

/-- `sortedEntries`: the computed view `[...entries].sort(comparator)`.
ECMAScript `Array.prototype.sort` is stable, so it is modelled as a stable
sort (insertion sort) with respect to the comparator's non-strict order. -/
def sortedEntries (entries : List MemoryEntry) : List MemoryEntry :=
  List.insertionSort rankLe entries

/-- `getEntriesForContext()`: empty when the store is disabled, otherwise
the ranked entries, truncated to `maxInjectedEntries` when that limit is
positive (`0` means inject everything). -/
def getEntriesForContext (enabled : Bool) (maxInjectedEntries : Int)
    (entries : List MemoryEntry) : List MemoryEntry :=
  if !enabled then []
  else
    let sorted := sortedEntries entries
    if 0 < maxInjectedEntries then sorted.take maxInjectedEntries.toNat
    else sorted

/-! ## Deduplication filter (`deduplicateInsights` in `use-self-learning.ts`)

```ts
const existing = memoryStore.entries.map(e => e.content.toLowerCase())
return insights.filter((insight) => {
  const lower = insight.toLowerCase()
  const words = lower.split(/\s+/)
  return !existing.some((e) => {
    const matches = words.filter(w => w.length > 4 && e.includes(w))
    return matches.length / words.length >= 0.6
  })
})
```
Note that the denominator is `words.length`, the number of *all* whitespace
tokens of the candidate, not only the significant (length > 4) ones. -/

def deduplicateInsights (entries : List MemoryEntry) (insights : List String) :
    List String :=
  let existing := entries.map fun e => jsLowerData e.content
  insights.filter fun insight =>
    let lower := jsLowerData insight
    let words := splitWsChars lower
    !(existing.any fun e =>
      let hits := words.filter fun w => decide (4 < w.length) && containsSeq w e
      decide ((0.6 : ℚ) ≤ (hits.length : ℚ) / (words.length : ℚ)))

/-- Number of whitespace tokens of the lower-cased candidate. -/
def tokCount (s : String) : Nat :=
  (splitWsChars (jsLowerData s)).length

/-- Number of significant (length > 4) whitespace tokens of the lower-cased
candidate. -/
def sigCount (s : String) : Nat :=
  ((splitWsChars (jsLowerData s)).filter fun w => decide (4 < w.length)).length

/-- Number of significant tokens of the candidate `c` that occur inside the
lower-cased existing content `e₀`. -/
def matchCount (e₀ c : String) : Nat :=
  ((splitWsChars (jsLowerData c)).filter fun w =>
    decide (4 < w.length) && containsSeq w (jsLowerData e₀)).length

/-! ## Supporting lemmas about the string primitives -/

lemma splitWsGo_ne_nil : ∀ (cs acc : List Char) (prev : Bool), splitWsGo cs acc prev ≠ []
  | [], acc, prev => by simp [splitWsGo]
  | c :: cs, acc, prev => by
    unfold splitWsGo
    by_cases h : jsIsSpace c
    · by_cases hp : prev <;> simp [h, hp, splitWsGo_ne_nil cs [] true]
    · simp [h, splitWsGo_ne_nil cs (c :: acc) false]

lemma tokCount_pos (s : String) : 0 < tokCount s := by
  unfold tokCount splitWsChars
  exact List.length_pos.mpr (splitWsGo_ne_nil _ _ _)

lemma length_filter_and_le {α : Type _} (p q : α → Bool) (l : List α) :
    (l.filter fun a => p a && q a).length ≤ (l.filter p).length := by
  induction l with
  | nil => simp
  | cons a t ih =>
    by_cases hp : p a <;> by_cases hq : q a <;>
      simp [List.filter_cons, hp, hq] <;> omega

lemma matchCount_le_sigCount (e₀ c : String) : matchCount e₀ c ≤ sigCount c :=
  length_filter_and_le _ _ _

/-- The threshold comparison `matches.length / words.length >= 0.6` of the
source, rephrased without division. -/
lemma ratioSixty (m n : Nat) (hn : 0 < n) :
    ((0.6 : ℚ) ≤ (m : ℚ) / (n : ℚ)) ↔ 3 * n ≤ 5 * m := by
  have hn' : (0 : ℚ) < (n : ℚ) := by exact_mod_cast hn
  rw [show (0.6 : ℚ) = 3 / 5 by norm_num, div_le_div_iff₀ (by norm_num) hn']
  constructor
  · intro h
    have : (3 : ℚ) * n ≤ 5 * m := by linarith
    exact_mod_cast this
  · intro h
    have : (3 : ℚ) * n ≤ 5 * m := by exact_mod_cast h
    linarith

/-! ## C1: behaviour of the deduplication filter -/

/-- C1 (amended). A candidate survives `deduplicateInsights` exactly when
every existing content matches strictly less than 60% of the candidate's
*whitespace tokens* (the implementation divides the number of matched
significant words by `words.length`, the count of all tokens, not by the
count of significant words); a candidate with zero significant words always
survives; the output is a subsequence of the input in input order.  On the
spec's own example the matched-significant count is 2 against 7 tokens
(2/7 < 0.6), so the candidate is *not* rejected. -/
theorem C1_dedup_amended :
    (∀ (entries : List MemoryEntry) (insights : List String) (i : String),
      i ∈ insights →
        (i ∈ deduplicateInsights entries insights ↔
          ∀ e ∈ entries, 5 * matchCount e.content i < 3 * tokCount i))
  ∧ (∀ (entries : List MemoryEntry) (insights : List String) (i : String),
      i ∈ insights → sigCount i = 0 → i ∈ deduplicateInsights entries insights)
  ∧ (∀ (entries : List MemoryEntry) (insights : List String),
      (deduplicateInsights entries insights).Sublist insights)
  ∧ matchCount "Python 3.13 removes the GIL in free-threaded builds"
      "Python 3.13 removed GIL for free-threaded mode" = 2
  ∧ tokCount "Python 3.13 removed GIL for free-threaded mode" = 7
  ∧ sigCount "Python 3.13 removed GIL for free-threaded mode" = 3 := by
  have hmain : ∀ (entries : List MemoryEntry) (insights : List String) (i : String),
      i ∈ insights →
        (i ∈ deduplicateInsights entries insights ↔
          ∀ e ∈ entries, 5 * matchCount e.content i < 3 * tokCount i) := by
    intro entries insights i hi
    unfold deduplicateInsights
    simp only [List.mem_filter, hi, true_and, Bool.not_eq_true',
      List.any_eq_false, List.mem_map, forall_exists_index, and_imp,
      forall_apply_eq_imp_iff₂, decide_eq_false_iff_not, decide_eq_true_eq]
    constructor
    · intro h e he
      have hr := ratioSixty (matchCount e.content i) (tokCount i) (tokCount_pos i)
      have hnot : ¬ (3 * tokCount i ≤ 5 * matchCount e.content i) :=
        fun hc => h e he (hr.mpr hc)
      omega
    · intro h e he hc
      have hr := ratioSixty (matchCount e.content i) (tokCount i) (tokCount_pos i)
      have h1 := hr.mp hc
      have h2 := h e he
      omega
  refine ⟨hmain, ?_, ?_, by decide, by decide, by decide⟩
  · intro entries insights i hi hsig
    rw [hmain entries insights i hi]
    intro e _
    have h1 := matchCount_le_sigCount e.content i
    have h2 := tokCount_pos i
    omega
  · intro entries insights
    unfold deduplicateInsights
    exact List.filter_sublist _

/-- C1 witness: the amended characterisation applied at concrete inputs. -/
theorem C1_dedup_witness :
    ("hello" ∈ deduplicateInsights [] ["hello"] ↔
      ∀ e ∈ ([] : List MemoryEntry), 5 * matchCount e.content "hello" < 3 * tokCount "hello")
  ∧ "ab cd" ∈ deduplicateInsights [mkEntry "m" "zzzzz zzzzz" [] MemorySource.manual 0] ["ab cd"] :=
  ⟨C1_dedup_amended.1 [] ["hello"] "hello" (by decide),
   C1_dedup_amended.2.1 [mkEntry "m" "zzzzz zzzzz" [] MemorySource.manual 0]
     ["ab cd"] "ab cd" (by decide) (by decide)⟩

/-! ## C5: the confidence lifecycle keeps confidence within [0, 1] -/

/-- A mutation of the long-term memory store relevant to the confidence
lifecycle, tagged with the `Date.now()` reading at which it runs. -/
inductive MemOp where
  | add (id content : String) (tags : List String) (source : MemorySource) (now : Int)
  | boost (id : String) (delta : ℚ) (now : Int)
  | decay (decayRate pruneBelow : ℚ) (now : Int)

/-- The clock reading at which an operation executes. -/
def opTime : MemOp → Int
  | .add _ _ _ _ now => now
  | .boost _ _ now => now
  | .decay _ _ now => now

/-- The parameter ranges of the claim: boost deltas and decay rates are
non-negative. -/
def opParamsOK : MemOp → Prop
  | .add _ _ _ _ _ => True
  | .boost _ delta _ => 0 ≤ delta
  | .decay decayRate _ _ => 0 ≤ decayRate

instance decOpParamsOK : (op : MemOp) → Decidable (opParamsOK op)
  | .add _ _ _ _ _ => .isTrue trivial
  | .boost _ delta _ => inferInstanceAs (Decidable (0 ≤ delta))
  | .decay decayRate _ _ => inferInstanceAs (Decidable (0 ≤ decayRate))

/-- Run one store operation. -/
def applyOp (entries : List MemoryEntry) : MemOp → List MemoryEntry
  | .add id content tags source now => addEntry entries id content tags source now
  | .boost id delta now => boostConfidence entries id delta now
  | .decay decayRate pruneBelow now => decayConfidence entries decayRate pruneBelow now

/-- Run a sequence of store operations. -/
def applyOps (entries : List MemoryEntry) : List MemOp → List MemoryEntry
  | [] => entries
  | op :: rest => applyOps (applyOp entries op) rest

/-- Operations are issued with non-decreasing `Date.now()` readings (the
clock never runs backwards) and in-range parameters. -/
def OpsOK : Int → List MemOp → Prop
  | _, [] => True
  | clock, op :: rest => clock ≤ opTime op ∧ opParamsOK op ∧ OpsOK (opTime op) rest

instance decOpsOK : (clock : Int) → (ops : List MemOp) → Decidable (OpsOK clock ops)
  | _, [] => .isTrue trivial
  | clock, op :: rest =>
    haveI : Decidable (OpsOK (opTime op) rest) := decOpsOK (opTime op) rest
    inferInstanceAs (Decidable (clock ≤ opTime op ∧ opParamsOK op ∧ OpsOK (opTime op) rest))

/-- State invariant: every entry's confidence lies in [0, 1] and no entry
was updated after the current clock reading. -/
def EntriesInv (clock : Int) (entries : List MemoryEntry) : Prop :=
  ∀ e ∈ entries, (0 ≤ e.confidence ∧ e.confidence ≤ 1) ∧ e.updatedAt ≤ clock

lemma entriesInv_mono {clock now : Int} {entries : List MemoryEntry}
    (h : EntriesInv clock entries) (hle : clock ≤ now) : EntriesInv now entries :=
  fun e he => ⟨(h e he).1, le_trans (h e he).2 hle⟩

lemma entriesInv_addEntry {clock now : Int} {entries : List MemoryEntry}
    (h : EntriesInv clock entries) (hle : clock ≤ now)
    (id content : String) (tags : List String) (source : MemorySource) :
    EntriesInv now (addEntry entries id content tags source now) := by
  intro e he
  rcases List.mem_append.mp he with hmem | hmem
  · exact entriesInv_mono h hle e hmem
  · rcases List.mem_singleton.mp hmem with rfl
    refine ⟨?_, le_refl now⟩
    rcases source
    · rw [show (mkEntry id content tags MemorySource.manual now).confidence = 0.8 from rfl]
      norm_num
    · rw [show (mkEntry id content tags MemorySource.selfLearning now).confidence = 0.6 from rfl]
      norm_num

lemma entriesInv_boost {clock now : Int} {entries : List MemoryEntry}
    (h : EntriesInv clock entries) (hle : clock ≤ now)
    (id : String) {delta : ℚ} (hδ : 0 ≤ delta) :
    EntriesInv now (boostConfidence entries id delta now) := by
  intro e he
  rcases List.mem_map.mp he with ⟨e₀, he₀, rfl⟩
  by_cases hid : e₀.id = id
  · simp only [boostConfidence, hid, if_true]
    have h₀ := h e₀ he₀
    refine ⟨⟨le_min (by norm_num) (by linarith [h₀.1.1]), min_le_left _ _⟩, le_refl now⟩
  · simp only [boostConfidence, hid, if_false]
    exact entriesInv_mono h hle e₀ he₀

lemma entriesInv_decay {clock now : Int} {entries : List MemoryEntry}
    (h : EntriesInv clock entries) (hle : clock ≤ now)
    {decayRate : ℚ} (pruneBelow : ℚ) (hr : 0 ≤ decayRate) :
    EntriesInv now (decayConfidence entries decayRate pruneBelow now) := by
  intro e he
  rcases List.mem_filter.mp he with ⟨hmem, _⟩
  rcases List.mem_map.mp hmem with ⟨e₀, he₀, rfl⟩
  have h₀ := h e₀ he₀
  have hage : (0 : ℚ) ≤ ((now - e₀.updatedAt : Int) : ℚ) := by
    have h1 : e₀.updatedAt ≤ now := le_trans h₀.2 hle
    have h2 : (0 : Int) ≤ now - e₀.updatedAt := by omega
    exact_mod_cast h2
  have hweek : (0 : ℚ) < (oneWeekMs : ℚ) := by norm_num [oneWeekMs]
  have hsub : (0 : ℚ) ≤ decayRate * Rat.divInt (now - e₀.updatedAt) oneWeekMs := by
    rw [Rat.divInt_eq_div]
    exact mul_nonneg hr (div_nonneg hage (le_of_lt hweek))
  refine ⟨⟨le_max_left _ _, max_le (by norm_num) ?_⟩, le_trans h₀.2 hle⟩
  have hc := h₀.1.2
  linarith

lemma entriesInv_applyOps :
    ∀ (ops : List MemOp) (clock : Int) (entries : List MemoryEntry),
      EntriesInv clock entries → OpsOK clock ops →
        ∃ clock', EntriesInv clock' (applyOps entries ops)
  | [], clock, entries, h, _ => ⟨clock, h⟩
  | op :: rest, clock, entries, h, hok => by
    obtain ⟨hle, hparams, hrest⟩ := hok
    have hstep : EntriesInv (opTime op) (applyOp entries op) := by
      rcases op with ⟨id, content, tags, source, now⟩ | ⟨id, delta, now⟩ |
        ⟨decayRate, pruneBelow, now⟩
      · exact entriesInv_addEntry h hle id content tags source
      · exact entriesInv_boost h hle id hparams
      · exact entriesInv_decay h hle pruneBelow hparams
    exact entriesInv_applyOps rest (opTime op) (applyOp entries op) hstep hrest

/-- C5 (confirmed). `addEntry` seeds confidence 0.8 for manual entries and
0.6 for self-learning entries, and after any sequence of `addEntry`,
`boostConfidence` (delta ≥ 0) and `decayConfidence` (rate ≥ 0) operations
issued at non-decreasing clock readings, every entry's confidence stays in
[0, 1]: `boostConfidence` clamps at 1 from above (`Math.min(1, ·)`) and
`decayConfidence` clamps at 0 from below (`Math.max(0, ·)`). -/
theorem C5_confidence_invariant :
    (∀ (id content : String) (tags : List String) (now : Int),
        (mkEntry id content tags MemorySource.manual now).confidence = 0.8
      ∧ (mkEntry id content tags MemorySource.selfLearning now).confidence = 0.6)
  ∧ (∀ (clock : Int) (entries : List MemoryEntry) (ops : List MemOp),
        EntriesInv clock entries → OpsOK clock ops →
          ∀ e ∈ applyOps entries ops, 0 ≤ e.confidence ∧ e.confidence ≤ 1) := by
  constructor
  · intro id content tags now
    exact ⟨rfl, rfl⟩
  · intro clock entries ops hinv hok e he
    obtain ⟨clock', hinv'⟩ := entriesInv_applyOps ops clock entries hinv hok
    exact (hinv' e he).1

set_option maxRecDepth 2000 in
/-- C5 witness: a concrete boost-then-decay run started from one manual
entry stays within bounds. -/
theorem C5_confidence_witness :
    0 ≤ ((applyOps [mkEntry "a" "a fact" [] MemorySource.manual 0]
            [MemOp.boost "a" 0.05 10, MemOp.decay 0.02 0.05 10]).headI).confidence
  ∧ ((applyOps [mkEntry "a" "a fact" [] MemorySource.manual 0]
        [MemOp.boost "a" 0.05 10, MemOp.decay 0.02 0.05 10]).headI).confidence ≤ 1 :=
  C5_confidence_invariant.2 0 [mkEntry "a" "a fact" [] MemorySource.manual 0]
    [MemOp.boost "a" 0.05 10, MemOp.decay 0.02 0.05 10]
    (by unfold EntriesInv; with_unfolding_all decide)
    (by unfold OpsOK opTime opParamsOK; with_unfolding_all decide)
    ((applyOps [mkEntry "a" "a fact" [] MemorySource.manual 0]
        [MemOp.boost "a" 0.05 10, MemOp.decay 0.02 0.05 10]).headI)
    (by with_unfolding_all decide)

/-! ## C6: ranked retrieval for context injection -/

/-- Example entry A of the spec: confidence 0.9, updated at t1 = 1. -/
def entryA : MemoryEntry :=
  { id := "A", content := "a", tags := [], source := MemorySource.manual,
    confidence := 0.9, useCount := 0, createdAt := 1, updatedAt := 1 }

/-- Example entry B of the spec: confidence 0.9, updated at t2 = 2 > t1. -/
def entryB : MemoryEntry :=
  { id := "B", content := "b", tags := [], source := MemorySource.manual,
    confidence := 0.9, useCount := 0, createdAt := 2, updatedAt := 2 }

/-- Example entry C of the spec: confidence 0.5. -/
def entryC : MemoryEntry :=
  { id := "C", content := "c", tags := [], source := MemorySource.manual,
    confidence := 0.5, useCount := 0, createdAt := 0, updatedAt := 0 }

/-- Two entries fully tied in rank (same confidence, same `updatedAt`) whose
ids are in descending order in the store. -/
def entryTieB : MemoryEntry :=
  { id := "b", content := "x", tags := [], source := MemorySource.manual,
    confidence := 0.5, useCount := 0, createdAt := 0, updatedAt := 100 }

/-- Same rank as `entryTieB` but with the smaller id "a", stored second. -/
def entryTieA : MemoryEntry :=
  { entryTieB with id := "a" }

set_option maxRecDepth 20000 in
/-- C6 (amended). `getEntriesForContext` returns the stored entries ordered
by confidence descending with ties broken by `updatedAt` descending; entries
tied on both keep their store insertion order (stable sort) — there is *no*
id tiebreak.  A limit of 0 returns every entry, a positive limit truncates
the ranking, and a disabled store yields `[]`.  The spec's concrete example
still orders as [B, A, C]. -/
theorem C6_ranking_amended :
    (∀ entries : List MemoryEntry, (sortedEntries entries).Perm entries)
  ∧ (∀ entries : List MemoryEntry, List.Sorted rankLe (sortedEntries entries))
  ∧ (∀ (mx : Int) (entries : List MemoryEntry), getEntriesForContext false mx entries = [])
  ∧ (∀ (mx : Int) (entries : List MemoryEntry),
      getEntriesForContext true mx entries =
        if 0 < mx then (sortedEntries entries).take mx.toNat else sortedEntries entries)
  ∧ getEntriesForContext true 0 [entryA, entryB, entryC] = [entryB, entryA, entryC] := by
  refine ⟨fun entries => List.perm_insertionSort rankLe entries,
         fun entries => List.sorted_insertionSort rankLe entries,
         fun mx entries => rfl,
         fun mx entries => rfl,
         ?_⟩
  with_unfolding_all decide

set_option maxRecDepth 20000 in
/-- C6 counterexample: the claim's final tiebreak "id ascending" does not
exist in the code.  Two entries fully tied in rank but stored as
[id "b", id "a"] are returned in store order [b, a] (stable sort), not in
id-ascending order [a, b]. -/
theorem C6_ranking_counterexample :
    getEntriesForContext true 0 [entryTieB, entryTieA] = [entryTieB, entryTieA]
  ∧ getEntriesForContext true 0 [entryTieB, entryTieA] ≠ [entryTieA, entryTieB] := by
  with_unfolding_all decide

/-! ## C7: decay and pruning -/

/-- An entry at confidence 0.10 last updated at time 0 (3 weeks before the
decay call below). -/
def entryTen : MemoryEntry :=
  { id := "ten", content := "t", tags := [], source := MemorySource.manual,
    confidence := 0.10, useCount := 0, createdAt := 0, updatedAt := 0 }

/-- An entry at confidence 0.05 updated exactly at the decay call's clock
reading (age 0 weeks). -/
def entryFive : MemoryEntry :=
  { id := "five", content := "f", tags := [], source := MemorySource.manual,
    confidence := 0.05, useCount := 0, createdAt := 0, updatedAt := 3 * oneWeekMs }

set_option maxRecDepth 20000 in
/-- C7 (confirmed). `decayConfidence` maps every entry to confidence
`max(0, confidence − decayRate · (now − updatedAt)/week)` and keeps exactly
those whose resulting confidence is at least `pruneBelow` (it removes
exactly those strictly below).  With the defaults (rate 0.02, prune 0.05):
an entry at 0.10 aged 3 weeks decays to 0.04 and is pruned; an entry at
0.05 aged 0 weeks stays at 0.05 and is retained.  The function is a pure
function of the entries and the clock reading, hence deterministic. -/
theorem C7_decay_correct :
    (∀ (entries : List MemoryEntry) (decayRate pruneBelow : ℚ) (now : Int)
        (e : MemoryEntry),
        e ∈ decayConfidence entries decayRate pruneBelow now ↔
          ∃ e₀ ∈ entries, e = decayedEntry decayRate now e₀ ∧ pruneBelow ≤ e.confidence)
  ∧ (∀ (decayRate : ℚ) (now : Int) (e₀ : MemoryEntry),
        (decayedEntry decayRate now e₀).confidence =
          max 0 (e₀.confidence - decayRate * (((now - e₀.updatedAt : Int) : ℚ) / (oneWeekMs : ℚ))))
  ∧ (decayedEntry 0.02 (3 * oneWeekMs) entryTen).confidence = 0.04
  ∧ (decayConfidence [entryTen, entryFive] 0.02 0.05 (3 * oneWeekMs)).map (fun e => e.id)
      = ["five"]
  ∧ ((decayConfidence [entryTen, entryFive] 0.02 0.05 (3 * oneWeekMs)).headI).confidence
      = 0.05 := by
  refine ⟨?_, ?_, ?_, ?_, ?_⟩
  · intro entries decayRate pruneBelow now e
    constructor
    · intro he
      rcases List.mem_filter.mp he with ⟨hmem, hp⟩
      rcases List.mem_map.mp hmem with ⟨e₀, he₀, rfl⟩
      exact ⟨e₀, he₀, rfl, by simpa using hp⟩
    · rintro ⟨e₀, he₀, rfl, hp⟩
      exact List.mem_filter.mpr ⟨List.mem_map.mpr ⟨e₀, he₀, rfl⟩, by simpa using hp⟩
  · intro decayRate now e₀
    show max 0 (e₀.confidence - decayRate * Rat.divInt (now - e₀.updatedAt) oneWeekMs) = _
    rw [Rat.divInt_eq_div]
  · with_unfolding_all decide
  · with_unfolding_all decide
  · with_unfolding_all decide

/-! ## Self-learning store (`self-learning.ts`): schedule and run ledger -/

/-- `LearningSchedule`: `'manual' | 'hourly' | 'daily' | 'weekly'`. -/
inductive Schedule where
  | manual
  | hourly
  | daily
  | weekly
deriving DecidableEq, Repr

/-- The interval table of `isDue` in milliseconds.  The source maps
`manual` to `Infinity`; that value can never be read because the `manual`
case returns in the first branch of `isDue`, so the model assigns it 0. -/
def intervalMs : Schedule → Int
  | .manual => 0
  | .hourly => 60 * 60 * 1000
  | .daily => 24 * 60 * 60 * 1000
  | .weekly => 7 * 24 * 60 * 60 * 1000

/-- `isDue()`: the source tests `schedule === 'manual' || !lastRunAt.value`
and returns `schedule !== 'manual'` in that case; note that the JavaScript
negation `!lastRunAt.value` is true both for `null` (unset) and for the
number `0`, which the model renders as `lastRunAt.getD 0 = 0`.  Otherwise
it returns `(now - lastRunAt) >= intervals[schedule]`. -/
def isDue (schedule : Schedule) (lastRunAt : Option Int) (now : Int) : Bool :=
  if schedule = Schedule.manual ∨ lastRunAt.getD 0 = 0 then
    decide (schedule ≠ Schedule.manual)
  else
    decide (intervalMs schedule ≤ now - lastRunAt.getD 0)

/-- The `status` field of a `LearningRun`. -/
inductive RunStatus where
  | running
  | done
  | error
deriving DecidableEq, Repr

/-- A ledger record of one pipeline run (interface `LearningRun`). -/
structure LearningRun where
  id : String
  startedAt : Int
  completedAt : Option Int
  status : RunStatus
  topicsProcessed : List String
  insightsSaved : Nat
  error : Option String
deriving DecidableEq, Repr

/-- The slice of the self-learning store the run ledger operates on:
`runHistory` (most recent first) and the schedule baseline `lastRunAt`. -/
structure SelfLearningState where
  runHistory : List LearningRun
  lastRunAt : Option Int
deriving DecidableEq, Repr

/-- `latestRun`: `runHistory.value[0] ?? null`. -/
def latestRun (st : SelfLearningState) : Option LearningRun :=
  st.runHistory.head?

/-- `isRunning`: `latestRun.value?.status === 'running'`. -/
def isRunning (st : SelfLearningState) : Bool :=
  match latestRun st with
  | some r => decide (r.status = RunStatus.running)
  | none => false

/-- `startRun(topicNames)`: builds a `running` record (id from `nanoid()`,
`startedAt` from `Date.now()`, both supplied by the caller of the model),
prepends it and truncates the history to the 20 most recent runs. -/
def startRun (st : SelfLearningState) (runId : String) (topicNames : List String)
    (now : Int) : SelfLearningState × LearningRun :=
  let run : LearningRun :=
    { id := runId, startedAt := now, completedAt := none,
      status := RunStatus.running, topicsProcessed := topicNames,
      insightsSaved := 0, error := none }
  ({ st with runHistory := (run :: st.runHistory).take 20 }, run)

/-- `completeRun(runId, insightsSaved)`: stamps the matching record `done`
with `completedAt` and the saved count, and advances the schedule baseline
`lastRunAt` to the same clock reading. -/
def completeRun (st : SelfLearningState) (runId : String) (insightsSaved : Nat)
    (now : Int) : SelfLearningState :=
  { runHistory := st.runHistory.map fun r =>
      if r.id = runId then
        { r with status := RunStatus.done, completedAt := some now,
                 insightsSaved := insightsSaved }
      else r
    lastRunAt := some now }

/-- `failRun(runId, error)`: stamps the matching record `error` with
`completedAt` and the message; `lastRunAt` is not touched. -/
def failRun (st : SelfLearningState) (runId : String) (errMsg : String)
    (now : Int) : SelfLearningState :=
  { st with runHistory := st.runHistory.map fun r =>
      if r.id = runId then
        { r with status := RunStatus.error, completedAt := some now,
                 error := some errMsg }
      else r }

/-! ## C8: due-ness of the schedule -/

/-- C8 (amended). `isDue` never fires for `manual`; for the periodic
schedules it fires immediately when `lastRunAt` is unset *or equal to the
timestamp 0* (JavaScript falsiness of `!lastRunAt.value`), and otherwise
fires exactly when `now − lastRunAt` has reached the interval (1 h / 24 h /
7 d in milliseconds).  The daily examples at 23 h and 25 h behave as
claimed. -/
theorem C8_isDue_amended :
    (∀ (lastRunAt : Option Int) (now : Int), isDue Schedule.manual lastRunAt now = false)
  ∧ (∀ (s : Schedule) (now : Int), s ≠ Schedule.manual →
      isDue s none now = true ∧ isDue s (some 0) now = true)
  ∧ (∀ (s : Schedule) (t now : Int), s ≠ Schedule.manual → t ≠ 0 →
      isDue s (some t) now = decide (intervalMs s ≤ now - t))
  ∧ intervalMs Schedule.hourly = 3600000
  ∧ intervalMs Schedule.daily = 86400000
  ∧ intervalMs Schedule.weekly = 604800000
  ∧ isDue Schedule.daily (some (100000000 - 23 * 3600000)) 100000000 = false
  ∧ isDue Schedule.daily (some (100000000 - 25 * 3600000)) 100000000 = true := by
  refine ⟨?_, ?_, ?_, rfl, rfl, rfl, by with_unfolding_all decide, by with_unfolding_all decide⟩
  · intro lastRunAt now
    simp [isDue]
  · intro s now hs
    constructor <;> simp [isDue, hs]
  · intro s t now hs ht
    rw [isDue, if_neg]
    · rfl
    · rintro (h | h)
      · exact hs h
      · exact ht (by simpa using h)

/-- C8 witness: the amended characterisation applied at concrete inputs
(hourly schedule, one-hour-and-one-millisecond elapsed). -/
theorem C8_isDue_witness :
    isDue Schedule.hourly none 5 = true
  ∧ isDue Schedule.hourly (some 1) 3600002 = decide (intervalMs Schedule.hourly ≤ (3600002 : Int) - 1) :=
  ⟨(C8_isDue_amended.2.1 Schedule.hourly 5 (by decide)).1,
   C8_isDue_amended.2.2.1 Schedule.hourly 1 3600002 (by decide) (by decide)⟩

/-- C8 counterexample: the claim says that for a periodic schedule with
`lastRunAt` *set*, due-ness is exactly `now − lastRunAt ≥ interval`.  At
`lastRunAt = 0` (a set value, the epoch) and `now = 1000` the code returns
`true` although only one second has elapsed, because `!lastRunAt.value` is
true for the number 0. -/
theorem C8_isDue_counterexample :
    isDue Schedule.hourly (some 0) 1000 = true
  ∧ ¬ (intervalMs Schedule.hourly ≤ (1000 : Int) - 0) := by
  with_unfolding_all decide

/-! ## C9: run-ledger transitions -/

/-- C9 (confirmed). `completeRun` advances the schedule baseline to the
completion time and maps the matching record to `done` (stamping
`completedAt` and the saved count); `failRun` leaves `lastRunAt` exactly as
it was and maps the matching record to `error` (stamping `completedAt` and
the message).  Neither changes the history length, and `failRun` preserves
every record's `insightsSaved`. -/
theorem C9_run_transitions :
    ∀ (st : SelfLearningState) (runId : String) (insightsSaved : Nat)
      (msg : String) (now : Int),
      (completeRun st runId insightsSaved now).lastRunAt = some now
    ∧ (failRun st runId msg now).lastRunAt = st.lastRunAt
    ∧ (completeRun st runId insightsSaved now).runHistory
        = st.runHistory.map (fun r =>
            if r.id = runId then
              { r with status := RunStatus.done, completedAt := some now,
                       insightsSaved := insightsSaved }
            else r)
    ∧ (failRun st runId msg now).runHistory
        = st.runHistory.map (fun r =>
            if r.id = runId then
              { r with status := RunStatus.error, completedAt := some now,
                       error := some msg }
            else r)
    ∧ (failRun st runId msg now).runHistory.map (fun r => r.insightsSaved)
        = st.runHistory.map (fun r => r.insightsSaved)
    ∧ (completeRun st runId insightsSaved now).runHistory.length = st.runHistory.length
    ∧ (failRun st runId msg now).runHistory.length = st.runHistory.length := by
  intro st runId insightsSaved msg now
  refine ⟨rfl, rfl, rfl, rfl, ?_, by simp [completeRun], by simp [failRun]⟩
  unfold failRun
  rw [List.map_map]
  refine List.map_congr_left fun r _ => ?_
  by_cases h : r.id = runId <;> simp [h]

/-- C1 counterexample: the claim asserts the candidate
"Python 3.13 removed GIL for free-threaded mode" is rejected given the
existing content "Python 3.13 removes the GIL in free-threaded builds".
The code keeps it: only 2 of its 7 whitespace tokens are significant words
contained in the existing content, and 2/7 < 0.6 (the implementation divides
by the total token count, not the significant-word count). -/
theorem C1_dedup_counterexample :
    deduplicateInsights
      [mkEntry "m1" "Python 3.13 removes the GIL in free-threaded builds" []
        MemorySource.manual 0]
      ["Python 3.13 removed GIL for free-threaded mode"]
    = ["Python 3.13 removed GIL for free-threaded mode"] := by
  with_unfolding_all decide

/-! ## Learning pipeline (`use-self-learning.ts`)

The pipeline's external collaborators are stubs in the model, placed at the
exact `await` boundaries of the source: `getProvider` stands for
`providersStore.getProviderInstance`, `search` for `webSearchStore.search`
(the HTTP backends collapsed behind it), `fetch` for the raw `ofetch` call
inside `readPage`, and `generate` for `generateText` together with the
JSON-array extraction of `distillInsights` (everything between the model
call and the typed string list).  Each stub either produces a value or
throws (`Except.error`). -/

/-- A search result (interface `WebSearchResult`). -/
structure WebSearchResult where
  title : String
  url : String
  snippet : String
deriving DecidableEq, Repr

/-- Page content (interface `PageContent`).  The `title` field of the
source is extracted only to label the page inside the prompt handed to the
collapsed `generate` stub, so the model does not track it. -/
structure PageContent where
  url : String
  content : String
deriving DecidableEq, Repr

instance {ε α : Type _} [DecidableEq ε] [DecidableEq α] :
    DecidableEq (Except ε α) := fun x y =>
  match x, y with
  | Except.ok a, Except.ok b =>
    match decEq a b with
    | isTrue h => isTrue (by rw [h])
    | isFalse h => isFalse (by intro hc; cases hc; exact h rfl)
  | Except.ok _, Except.error _ => isFalse (by intro hc; cases hc)
  | Except.error _, Except.ok _ => isFalse (by intro hc; cases hc)
  | Except.error a, Except.error b =>
    match decEq a b with
    | isTrue h => isTrue (by rw [h])
    | isFalse h => isFalse (by intro hc; cases hc; exact h rfl)

/-- The external collaborators of one run. -/
structure Env where
  getProvider : Except String Unit
  search : String → Nat → Except String (List WebSearchResult)
  fetch : String → Except String String
  generate : String → Except String (List String)

/-- A configured learning topic (interface `LearningTopic`). -/
structure LearningTopic where
  id : String
  name : String
  hint : String
  enabled : Bool
  createdAt : Int
deriving DecidableEq, Repr

/-- The store-derived configuration consulted by `runLearningLoop`:
`selfLearningStore.enabled`, the consciousness store's active provider and
model (empty string = unset, matching JavaScript falsiness), the web-search
`configured` flag, the topic list, and `maxPagesPerTopic`. -/
structure LoopConfig where
  enabled : Bool
  activeProvider : String
  activeModel : String
  webSearchConfigured : Bool
  topics : List LearningTopic
  maxPagesPerTopic : Nat

/-- The mutable state a run touches: the long-term memory entries and the
self-learning store's ledger slice. -/
structure LoopState where
  memory : List MemoryEntry
  sl : SelfLearningState
deriving DecidableEq, Repr

/-- `activeTopics`: `topics.value.filter(t => t.enabled)`. -/
def activeTopics (cfg : LoopConfig) : List LearningTopic :=
  cfg.topics.filter fun t => t.enabled

/-- `readPage(url)`: the fetched text truncated to 6000 characters, or the
empty string when the fetch throws (the source catches every error). -/
def readPage (fetch : String → Except String String) (url : String) : String :=
  match fetch url with
  | Except.ok content => strTake content 6000
  | Except.error _ => ""

/-- `distillInsights`: an empty page list yields no insights; otherwise the
parsed string array (or `[]` when the model call / extraction throws) is
filtered to non-blank strings, trimmed, and capped at 8. -/
def distillInsights (generated : Except String (List String))
    (pages : List PageContent) : List String :=
  if pages.length = 0 then []
  else
    match generated with
    | Except.ok arr => ((arr.filter fun s => decide (0 < (jsTrim s).length)).map jsTrim).take 8
    | Except.error _ => []

/-- The page-collection loop of step 3 (DISTILL): pages whose trimmed
content is longer than 200 characters are kept. -/
def gatherPages (fetch : String → Except String String) : List String → List PageContent
  | [] => []
  | url :: rest =>
    let content := readPage fetch url
    if 200 < (jsTrim content).length then
      { url := url, content := content } :: gatherPages fetch rest
    else gatherPages fetch rest

/-- The save loop of step 4 (CONSOLIDATE): each novel insight is added via
`memoryStore.addEntry(insight, [topic.name, 'self-learning'],
'self-learning')`; `k` counts saved insights to supply fresh ids. -/
def saveInsights (topicName : String) (entryId : Nat → String) (now : Int) :
    List String → List MemoryEntry → Nat → List MemoryEntry
  | [], mem, _ => mem
  | insight :: rest, mem, k =>
    saveInsights topicName entryId now rest
      (addEntry mem (entryId k) insight [topicName, "self-learning"]
        MemorySource.selfLearning now)
      (k + 1)

/-- The search query of step 1 (RETRIEVE):
`topic.hint ? `${topic.name} ${topic.hint}` : topic.name`. -/
def topicQuery (topic : LearningTopic) : String :=
  if topic.hint ≠ "" then topic.name ++ " " ++ topic.hint else topic.name

/-- The per-topic loop of `runLearningLoop`.  It returns the memory after
the processed topics, the running insight total, and `some msg` when an
exception escaped (a thrown search error aborts the loop; the memory
mutated so far is kept, since the source mutates `memoryStore` in place). -/
def topicLoop (env : Env) (maxPages : Nat) (entryId : Nat → String) (now : Int) :
    List LearningTopic → List MemoryEntry → Nat →
      List MemoryEntry × Nat × Option String
  | [], mem, total => (mem, total, none)
  | topic :: rest, mem, total =>
    match env.search (topicQuery topic) 4 with
    | Except.error e => (mem, total, some e)
    | Except.ok results =>
      if results.length = 0 then topicLoop env maxPages entryId now rest mem total
      else
        let topUrls := ((results.take maxPages).map fun r => r.url).filter
          fun u => decide (u ≠ "")
        let pages := gatherPages env.fetch topUrls
        let rawInsights := distillInsights (env.generate topic.name) pages
        let novelInsights := deduplicateInsights mem rawInsights
        let mem2 := saveInsights topic.name entryId now novelInsights mem total
        topicLoop env maxPages entryId now rest mem2 (total + novelInsights.length)

/-- `runLearningLoop()`.  The guard returns 0 when disabled or already
running; the three pre-flight checks throw; then a `running` ledger record
is created and the topic loop runs inside try/catch: on success the run is
completed (advancing `lastRunAt`), on a thrown error the run is failed and
the error is *rethrown* (`throw err` in the catch block). -/
def runLearningLoop (env : Env) (cfg : LoopConfig) (runId : String)
    (entryId : Nat → String) (now : Int) (st : LoopState) :
    Except String Nat × LoopState :=
  if !cfg.enabled || isRunning st.sl then (Except.ok 0, st)
  else if cfg.activeProvider = "" ∨ cfg.activeModel = "" then
    (Except.error "No active LLM provider configured", st)
  else if !cfg.webSearchConfigured then
    (Except.error "Web search is not configured – enable it in Modules → Web Search", st)
  else
    let topicsToLearn := activeTopics cfg
    if topicsToLearn.length = 0 then
      (Except.error "No learning topics configured", st)
    else
      let sl1 := (startRun st.sl runId (topicsToLearn.map fun t => t.name) now).1
      match env.getProvider with
      | Except.error e => (Except.error e, { st with sl := failRun sl1 runId e now })
      | Except.ok _ =>
        match topicLoop env cfg.maxPagesPerTopic entryId now topicsToLearn st.memory 0 with
        | (mem, total, none) =>
          (Except.ok total, { memory := mem, sl := completeRun sl1 runId total now })
        | (mem, total, some e) =>
          (Except.error e, { memory := mem, sl := failRun sl1 runId e now })

/-! ## Concrete pipeline fixtures -/

/-- A fetched page of 210 characters (long enough to pass the 200-character
thinness filter). -/
def pageBig : String := String.mk (List.replicate 210 'a')

/-- A single search result with a non-empty URL. -/
def resultA : WebSearchResult := { title := "t", url := "https://a", snippet := "s" }

/-- An enabled topic named "alpha". -/
def topicAlpha : LearningTopic :=
  { id := "t1", name := "alpha", hint := "", enabled := true, createdAt := 0 }

/-- An enabled topic named "beta". -/
def topicBeta : LearningTopic :=
  { id := "t2", name := "beta", hint := "", enabled := true, createdAt := 0 }

/-- Empty memory, empty ledger, no schedule baseline. -/
def initialState : LoopState :=
  { memory := [], sl := { runHistory := [], lastRunAt := none } }

/-- Stubbed collaborators that answer identically on every call: one search
result, one fat page, and the fixed insight list `[i]`. -/
def envIdem (i : String) : Env :=
  { getProvider := Except.ok ()
    search := fun _ _ => Except.ok [resultA]
    fetch := fun _ => Except.ok pageBig
    generate := fun _ => Except.ok [i] }

/-- A valid configuration with the single topic "alpha". -/
def cfgOne : LoopConfig :=
  { enabled := true, activeProvider := "p", activeModel := "m",
    webSearchConfigured := true, topics := [topicAlpha], maxPagesPerTopic := 2 }

/-- Collaborators whose search succeeds for topic "alpha" but throws
"boom" for every other query. -/
def envC10 : Env :=
  { getProvider := Except.ok ()
    search := fun q _ => if q = "alpha" then Except.ok [resultA] else Except.error "boom"
    fetch := fun _ => Except.ok pageBig
    generate := fun _ => Except.ok ["Rust is memory safe without garbage collection"] }

/-- A valid configuration with the two topics "alpha" and "beta". -/
def cfgC10 : LoopConfig :=
  { enabled := true, activeProvider := "p", activeModel := "m",
    webSearchConfigured := true, topics := [topicAlpha, topicBeta], maxPagesPerTopic := 2 }

/-! ## C4: single-flight guard -/

/-- C4 (confirmed). Invoking `runLearningLoop` while the most recent ledger
record is `running` returns 0 without throwing and leaves the entire state
(memory, run history, schedule baseline) untouched — no new ledger record,
no MemoryStore mutation. -/
theorem C4_single_flight :
    ∀ (env : Env) (cfg : LoopConfig) (runId : String) (entryId : Nat → String)
      (now : Int) (st : LoopState),
      isRunning st.sl = true →
        runLearningLoop env cfg runId entryId now st = (Except.ok 0, st) := by
  intro env cfg runId entryId now st h
  simp [runLearningLoop, h]

/-- C4 witness: a concrete invocation against a ledger whose head run is
`running` is a no-op. -/
theorem C4_single_flight_witness :
    runLearningLoop (envIdem "x") cfgOne "r9" (fun _ => "e") 7
      { memory := [],
        sl := { runHistory := [{ id := "r0", startedAt := 0, completedAt := none,
                                 status := RunStatus.running, topicsProcessed := ["alpha"],
                                 insightsSaved := 0, error := none }],
                lastRunAt := none } }
    = (Except.ok 0,
       { memory := [],
         sl := { runHistory := [{ id := "r0", startedAt := 0, completedAt := none,
                                  status := RunStatus.running, topicsProcessed := ["alpha"],
                                  insightsSaved := 0, error := none }],
                 lastRunAt := none } }) :=
  C4_single_flight (envIdem "x") cfgOne "r9" (fun _ => "e") 7 _ (by decide)

/-! ## Unfolding lemmas for the pipeline -/

/-- When every search call succeeds, the topic loop never reports an
error (fetch and generate failures are absorbed inside `readPage` and
`distillInsights`). -/
lemma topicLoop_no_error (env : Env) (maxPages : Nat) (entryId : Nat → String)
    (now : Int) (hs : ∀ q k, ∃ r, env.search q k = Except.ok r) :
    ∀ (topics : List LearningTopic) (mem : List MemoryEntry) (total : Nat),
      ∃ mem' total',
        topicLoop env maxPages entryId now topics mem total = (mem', total', none) := by
  intro topics
  induction topics with
  | nil => intro mem total; exact ⟨mem, total, rfl⟩
  | cons topic rest ih =>
    intro mem total
    obtain ⟨r, hr⟩ := hs (topicQuery topic) 4
    by_cases hres : r.length = 0
    · simpa [topicLoop, hr, hres] using ih mem total
    · simpa [topicLoop, hr, hres] using ih _ _

/-- The success path of `runLearningLoop` in equation form. -/
lemma runLearningLoop_success_eq (env : Env) (cfg : LoopConfig) (runId : String)
    (entryId : Nat → String) (now : Int) (st : LoopState)
    (h1 : cfg.enabled = true) (h2 : isRunning st.sl = false)
    (h3 : ¬(cfg.activeProvider = "" ∨ cfg.activeModel = ""))
    (h4 : cfg.webSearchConfigured = true)
    (h5 : (activeTopics cfg).length ≠ 0)
    (hp : env.getProvider = Except.ok ())
    {mem' : List MemoryEntry} {total' : Nat}
    (hloop : topicLoop env cfg.maxPagesPerTopic entryId now (activeTopics cfg)
        st.memory 0 = (mem', total', none)) :
    runLearningLoop env cfg runId entryId now st =
      (Except.ok total',
       { memory := mem',
         sl := completeRun
           (startRun st.sl runId ((activeTopics cfg).map fun t => t.name) now).1
           runId total' now }) := by
  simp [runLearningLoop, h1, h2, h3, h4, h5, hp, hloop]

/-- The failure path of `runLearningLoop` in equation form: the error is
rethrown after `failRun`, and the partially mutated memory is kept. -/
lemma runLearningLoop_failure_eq (env : Env) (cfg : LoopConfig) (runId : String)
    (entryId : Nat → String) (now : Int) (st : LoopState)
    (h1 : cfg.enabled = true) (h2 : isRunning st.sl = false)
    (h3 : ¬(cfg.activeProvider = "" ∨ cfg.activeModel = ""))
    (h4 : cfg.webSearchConfigured = true)
    (h5 : (activeTopics cfg).length ≠ 0)
    (hp : env.getProvider = Except.ok ())
    {mem' : List MemoryEntry} {total' : Nat} {msg : String}
    (hloop : topicLoop env cfg.maxPagesPerTopic entryId now (activeTopics cfg)
        st.memory 0 = (mem', total', some msg)) :
    runLearningLoop env cfg runId entryId now st =
      (Except.error msg,
       { memory := mem',
         sl := failRun
           (startRun st.sl runId ((activeTopics cfg).map fun t => t.name) now).1
           runId msg now }) := by
  simp [runLearningLoop, h1, h2, h3, h4, h5, hp, hloop]

/-- Completing the run started by `startRun` stamps the new head record. -/
lemma completeRun_startRun_head (st : SelfLearningState) (runId : String)
    (names : List String) (now : Int) (total : Nat) :
    latestRun (completeRun (startRun st runId names now).1 runId total now) =
      some { id := runId, startedAt := now, completedAt := some now,
             status := RunStatus.done, topicsProcessed := names,
             insightsSaved := total, error := none } := by
  unfold latestRun completeRun startRun
  simp [show (20 : Nat) = 19 + 1 from rfl, List.take_succ_cons]

/-- Failing the run started by `startRun` stamps the new head record; its
`insightsSaved` stays at the 0 written by `startRun`. -/
lemma failRun_startRun_head (st : SelfLearningState) (runId : String)
    (names : List String) (now : Int) (msg : String) :
    latestRun (failRun (startRun st runId names now).1 runId msg now) =
      some { id := runId, startedAt := now, completedAt := some now,
             status := RunStatus.error, topicsProcessed := names,
             insightsSaved := 0, error := some msg } := by
  unfold latestRun failRun startRun
  simp [show (20 : Nat) = 19 + 1 from rfl, List.take_succ_cons]

/-! ## C3: error propagation -/

/-- C3 (amended). Page-fetch failures and model/extraction failures are the
only absorbed ones: `readPage` turns a thrown fetch into the empty string
and `distillInsights` turns a thrown generation into `[]`.  When the
collaborators that are *not* internally guarded (provider instantiation and
web search) do not throw, `runLearningLoop` can only throw the three
pre-flight configuration errors, and a post-pre-flight run always
terminates with ledger status `done` and an advanced baseline — even if
every fetch and generation failed.  (A thrown search or provider error,
however, is rethrown after `failRun`; see the counterexample.) -/
theorem C3_error_propagation_amended :
    (∀ (fetch : String → Except String String) (url msg : String),
        fetch url = Except.error msg → readPage fetch url = "")
  ∧ (∀ (msg : String) (pages : List PageContent),
        distillInsights (Except.error msg) pages = [])
  ∧ (∀ (env : Env) (cfg : LoopConfig) (runId : String) (entryId : Nat → String)
        (now : Int) (st : LoopState) (msg : String),
        (∀ q k, ∃ r, env.search q k = Except.ok r) →
        env.getProvider = Except.ok () →
        (runLearningLoop env cfg runId entryId now st).1 = Except.error msg →
          msg ∈ ["No active LLM provider configured",
                 "Web search is not configured – enable it in Modules → Web Search",
                 "No learning topics configured"])
  ∧ (∀ (env : Env) (cfg : LoopConfig) (runId : String) (entryId : Nat → String)
        (now : Int) (st : LoopState),
        (∀ q k, ∃ r, env.search q k = Except.ok r) →
        env.getProvider = Except.ok () →
        cfg.enabled = true → isRunning st.sl = false →
        ¬(cfg.activeProvider = "" ∨ cfg.activeModel = "") →
        cfg.webSearchConfigured = true → (activeTopics cfg).length ≠ 0 →
          ∃ total,
            (runLearningLoop env cfg runId entryId now st).1 = Except.ok total
          ∧ ((latestRun (runLearningLoop env cfg runId entryId now st).2.sl).map
              fun r => r.status) = some RunStatus.done
          ∧ (runLearningLoop env cfg runId entryId now st).2.sl.lastRunAt = some now) := by
  refine ⟨?_, ?_, ?_, ?_⟩
  · intro fetch url msg h
    simp [readPage, h]
  · intro msg pages
    by_cases h : pages.length = 0 <;> simp [distillInsights, h]
  · intro env cfg runId entryId now st msg hs hp herr
    by_cases h1 : (!cfg.enabled || isRunning st.sl) = true
    · simp [runLearningLoop, h1] at herr
    · rw [Bool.not_eq_true] at h1
      by_cases h2 : cfg.activeProvider = "" ∨ cfg.activeModel = ""
      · simp [runLearningLoop, h1, h2] at herr
        subst herr; simp
      · by_cases h3 : (!cfg.webSearchConfigured) = true
        · simp [runLearningLoop, h1, h2, h3] at herr
          subst herr; simp
        · rw [Bool.not_eq_true] at h3
          by_cases h4 : (activeTopics cfg).length = 0
          · simp [runLearningLoop, h1, h2, h3, h4] at herr
            subst herr; simp
          · obtain ⟨mem', total', hloop⟩ :=
              topicLoop_no_error env cfg.maxPagesPerTopic entryId now hs
                (activeTopics cfg) st.memory 0
            simp [runLearningLoop, h1, h2, h3, h4, hp, hloop] at herr
  · intro env cfg runId entryId now st hs hp hen hrun h3 hweb htop
    obtain ⟨mem', total', hloop⟩ :=
      topicLoop_no_error env cfg.maxPagesPerTopic entryId now hs
        (activeTopics cfg) st.memory 0
    have heq := runLearningLoop_success_eq env cfg runId entryId now st
      hen hrun h3 hweb htop hp hloop
    rw [heq]
    refine ⟨total', rfl, ?_, rfl⟩
    show (latestRun (completeRun
        (startRun st.sl runId ((activeTopics cfg).map fun t => t.name) now).1
        runId total' now)).map (fun r => r.status) = some RunStatus.done
    rw [completeRun_startRun_head]
    rfl

/-- C3 witness: the amended statement applied at concrete inputs — a thrown
fetch is absorbed to "", a thrown generation to `[]`, and the one error a
valid-environment run can raise is a pre-flight message. -/
theorem C3_error_propagation_witness :
    readPage (fun _ => Except.error "net down") "https://a" = ""
  ∧ distillInsights (Except.error "bad json") [{ url := "u", content := "c" }] = []
  ∧ "No active LLM provider configured" ∈
      ["No active LLM provider configured",
       "Web search is not configured – enable it in Modules → Web Search",
       "No learning topics configured"] :=
  ⟨C3_error_propagation_amended.1 (fun _ => Except.error "net down") "https://a"
      "net down" rfl,
   C3_error_propagation_amended.2.1 "bad json" [{ url := "u", content := "c" }],
   C3_error_propagation_amended.2.2.1 (envIdem "x") { cfgOne with activeProvider := "" }
     "r" (fun _ => "e") 0 initialState "No active LLM provider configured"
     (fun _ _ => ⟨[resultA], rfl⟩) rfl (by with_unfolding_all decide)⟩

/-- C3 counterexample: the claim says failures during search never
propagate out of `runLearningLoop` and a run with failures still ends
`done`.  With a search stub that throws "network down" and an otherwise
valid configuration, the call *throws* "network down" (the catch block
rethrows after `failRun`) and the ledger records status `error`, not
`done`. -/
theorem C3_error_propagation_counterexample :
    (runLearningLoop
        { getProvider := Except.ok ()
          search := fun _ _ => Except.error "network down"
          fetch := fun _ => Except.ok pageBig
          generate := fun _ => Except.ok ["x"] }
        cfgOne "r1" (fun _ => "e") 0 initialState).1 = Except.error "network down"
  ∧ ((latestRun (runLearningLoop
        { getProvider := Except.ok ()
          search := fun _ _ => Except.error "network down"
          fetch := fun _ => Except.ok pageBig
          generate := fun _ => Except.ok ["x"] }
        cfgOne "r1" (fun _ => "e") 0 initialState).2.sl).map fun r => r.status)
      = some RunStatus.error := by
  with_unfolding_all decide

/-! ## C10: no rollback, and the failed run's counter stays 0 -/

/-- C10 (confirmed). When the topic loop aborts with a thrown error after
some insights were already saved, `runLearningLoop` rethrows the error, the
partially filled memory is kept exactly as the loop left it (no rollback),
the failed ledger record keeps `insightsSaved = 0` (its `startRun` value —
`failRun` never records the partial count), and the schedule baseline is
untouched. -/
theorem C10_no_rollback :
    ∀ (env : Env) (cfg : LoopConfig) (runId : String) (entryId : Nat → String)
      (now : Int) (st : LoopState) (mem' : List MemoryEntry) (total' : Nat)
      (msg : String),
      cfg.enabled = true → isRunning st.sl = false →
      ¬(cfg.activeProvider = "" ∨ cfg.activeModel = "") →
      cfg.webSearchConfigured = true → (activeTopics cfg).length ≠ 0 →
      env.getProvider = Except.ok () →
      topicLoop env cfg.maxPagesPerTopic entryId now (activeTopics cfg) st.memory 0
        = (mem', total', some msg) →
        (runLearningLoop env cfg runId entryId now st).1 = Except.error msg
      ∧ (runLearningLoop env cfg runId entryId now st).2.memory = mem'
      ∧ ((latestRun (runLearningLoop env cfg runId entryId now st).2.sl).map
          fun r => r.status) = some RunStatus.error
      ∧ ((latestRun (runLearningLoop env cfg runId entryId now st).2.sl).map
          fun r => r.insightsSaved) = some 0
      ∧ (runLearningLoop env cfg runId entryId now st).2.sl.lastRunAt
          = st.sl.lastRunAt := by
  intro env cfg runId entryId now st mem' total' msg hen hrun h3 hweb htop hp hloop
  have heq := runLearningLoop_failure_eq env cfg runId entryId now st
    hen hrun h3 hweb htop hp hloop
  rw [heq]
  refine ⟨rfl, rfl, ?_, ?_, rfl⟩
  · show (latestRun (failRun
        (startRun st.sl runId ((activeTopics cfg).map fun t => t.name) now).1
        runId msg now)).map (fun r => r.status) = some RunStatus.error
    rw [failRun_startRun_head]
    rfl
  · show (latestRun (failRun
        (startRun st.sl runId ((activeTopics cfg).map fun t => t.name) now).1
        runId msg now)).map (fun r => r.insightsSaved) = some 0
    rw [failRun_startRun_head]
    rfl

set_option maxRecDepth 100000 in
/-- C10 witness: with topic "alpha" succeeding (1 insight saved) and topic
"beta"'s search throwing "boom", the saved entry remains in memory while
the errored ledger record reports `insightsSaved = 0`. -/
theorem C10_no_rollback_witness :
    (runLearningLoop envC10 cfgC10 "r1" (fun _ => "e") 5 initialState).1
      = Except.error "boom"
  ∧ (runLearningLoop envC10 cfgC10 "r1" (fun _ => "e") 5 initialState).2.memory
      = [mkEntry "e" "Rust is memory safe without garbage collection"
          ["alpha", "self-learning"] MemorySource.selfLearning 5]
  ∧ ((latestRun (runLearningLoop envC10 cfgC10 "r1" (fun _ => "e") 5
        initialState).2.sl).map fun r => r.status) = some RunStatus.error
  ∧ ((latestRun (runLearningLoop envC10 cfgC10 "r1" (fun _ => "e") 5
        initialState).2.sl).map fun r => r.insightsSaved) = some 0
  ∧ (runLearningLoop envC10 cfgC10 "r1" (fun _ => "e") 5 initialState).2.sl.lastRunAt
      = none :=
  C10_no_rollback envC10 cfgC10 "r1" (fun _ => "e") 5 initialState
    [mkEntry "e" "Rust is memory safe without garbage collection"
      ["alpha", "self-learning"] MemorySource.selfLearning 5]
    1 "boom" rfl (by decide) (by decide) rfl (by decide) rfl
    (by with_unfolding_all decide)

/-! ## Token containment: every whitespace token of a string occurs in it -/

lemma startsWith_append (w rest : List Char) : startsWith w (w ++ rest) = true := by
  induction w with
  | nil => rfl
  | cons a as ih => simp [startsWith, ih]

lemma containsSeq_of_startsWith {n h : List Char} (hs : startsWith n h = true) :
    containsSeq n h = true := by
  cases h with
  | nil =>
    cases n with
    | nil => rfl
    | cons a as => simp [startsWith] at hs
  | cons c cs => simp [containsSeq, hs]

lemma containsSeq_cons {n t : List Char} (c : Char) (h : containsSeq n t = true) :
    containsSeq n (c :: t) = true := by
  simp [containsSeq, h]

lemma containsSeq_append_left {n t : List Char} (l : List Char)
    (h : containsSeq n t = true) : containsSeq n (l ++ t) = true := by
  induction l with
  | nil => simpa using h
  | cons c cs ih => simpa using containsSeq_cons c ih

lemma containsSeq_self_append (w rest : List Char) :
    containsSeq w (w ++ rest) = true :=
  containsSeq_of_startsWith (startsWith_append w rest)

lemma mem_splitWsGo_containsSeq :
    ∀ (cs acc : List Char) (prev : Bool) (w : List Char),
      w ∈ splitWsGo cs acc prev → containsSeq w (acc.reverse ++ cs) = true := by
  intro cs
  induction cs with
  | nil =>
    intro acc prev w hw
    simp only [splitWsGo, List.mem_singleton] at hw
    subst hw
    simpa using containsSeq_self_append acc.reverse []
  | cons c cs ih =>
    intro acc prev w hw
    by_cases hsp : jsIsSpace c
    · by_cases hprev : prev
      · simp only [splitWsGo, hsp, hprev, if_true] at hw
        have h1 := ih [] true w hw
        exact containsSeq_append_left acc.reverse (containsSeq_cons c (by simpa using h1))
      · simp only [splitWsGo, hsp, hprev, Bool.false_eq_true, if_true, if_false,
          List.mem_cons] at hw
        rcases hw with heq | hw
        · subst heq
          simpa using containsSeq_self_append acc.reverse (c :: cs)
        · have h1 := ih [] true w hw
          exact containsSeq_append_left acc.reverse (containsSeq_cons c (by simpa using h1))
    · simp only [splitWsGo, hsp, if_false] at hw
      have h1 := ih (c :: acc) false w hw
      rw [List.reverse_cons, List.append_assoc] at h1
      simpa using h1

lemma mem_splitWsChars_containsSeq {l w : List Char} (h : w ∈ splitWsChars l) :
    containsSeq w l = true := by
  simpa using mem_splitWsGo_containsSeq l [] false w h

/-! ## Behaviour of the deduplication filter on an exact stored copy -/

/-- Against an empty store nothing is deduplicated. -/
lemma deduplicateInsights_nil (insights : List String) :
    deduplicateInsights [] insights = insights := by
  unfold deduplicateInsights
  simp

/-- A candidate whose significant tokens make up at least 60% of its
whitespace tokens is rejected by the filter once a verbatim copy of it is
stored: every token of the candidate trivially occurs inside the stored
copy, so the matched count is the significant-token count. -/
lemma dedup_self_rejected (i : String) (hratio : 3 * tokCount i ≤ 5 * sigCount i)
    (e : MemoryEntry) (hc : e.content = i) :
    deduplicateInsights [e] [i] = [] := by
  have hfilter : (splitWsChars (jsLowerData i)).filter
        (fun w => decide (4 < w.length) && containsSeq w (jsLowerData i))
      = (splitWsChars (jsLowerData i)).filter (fun w => decide (4 < w.length)) := by
    apply List.filter_congr
    intro w hw
    rw [mem_splitWsChars_containsSeq hw, Bool.and_true]
  have hdec : decide ((0.6 : ℚ) ≤
      ((((splitWsChars (jsLowerData i)).filter (fun w => decide (4 < w.length))).length : ℚ)
        / ((splitWsChars (jsLowerData i)).length : ℚ))) = true := by
    rw [decide_eq_true_eq]
    exact (ratioSixty (sigCount i) (tokCount i) (tokCount_pos i)).mpr hratio
  unfold deduplicateInsights
  simp only [List.map_cons, List.map_nil, hc, List.filter_cons, List.any_cons,
    List.any_nil, Bool.or_false]
  rw [hfilter, hdec]
  simp

/-! ## C2: running the pipeline twice with identical stubs -/

/-- If a string is non-empty, its length is positive. -/
lemma length_pos_of_ne_empty {s : String} (h : s ≠ "") : 0 < s.length := by
  cases s with
  | mk data =>
    cases data with
    | nil => exact absurd rfl h
    | cons c cs => simp [String.length]

set_option maxRecDepth 100000 in
/-- The concrete single-topic loop of the idempotence scenario, for an
arbitrary candidate insight and memory. -/
lemma topicLoop_envIdem (i : String) (hlen : 0 < (jsTrim i).length)
    (entryId : Nat → String) (now : Int) (mem : List MemoryEntry) (total : Nat) :
    topicLoop (envIdem i) 2 entryId now [topicAlpha] mem total =
      (saveInsights "alpha" entryId now (deduplicateInsights mem [jsTrim i]) mem total,
       total + (deduplicateInsights mem [jsTrim i]).length, none) := by
  have hpages0 : gatherPages (fun _ => Except.ok pageBig)
      ((([resultA].take 2).map fun r => r.url).filter fun u => decide (u ≠ ""))
      = [{ url := "https://a", content := pageBig }] := by
    with_unfolding_all decide
  have hpages : gatherPages (envIdem i).fetch
      ((([resultA].take 2).map fun r => r.url).filter fun u => decide (u ≠ ""))
      = [{ url := "https://a", content := pageBig }] := hpages0
  have hdistill : distillInsights ((envIdem i).generate topicAlpha.name)
      [{ url := "https://a", content := pageBig }] = [jsTrim i] := by
    show distillInsights (Except.ok [i]) _ = _
    simp [distillInsights, hlen]
  have hsearch : (envIdem i).search (topicQuery topicAlpha) 4 = Except.ok [resultA] := rfl
  simp only [topicLoop, hsearch]
  rw [if_neg (show ¬ ([resultA].length = 0) by decide)]
  rw [hpages, hdistill]
  rfl

set_option maxRecDepth 400 in
/-- C2 (amended). Running the pipeline twice back-to-back with stub
collaborators that return identical search results, page content and the
single insight `i` on both runs stores exactly one `MemoryEntry` *provided*
the insight is trim-stable and its significant words (tokens longer than 4
characters) make up at least 60% of its whitespace tokens — then the second
run's candidate is rejected against its own stored copy.  (Without that
ratio condition the second run can store the insight again; see the
counterexample.) -/
theorem C2_idempotence_amended :
    ∀ i : String, jsTrim i = i → i ≠ "" → 3 * tokCount i ≤ 5 * sigCount i →
      (runLearningLoop (envIdem i) cfgOne "r1" (fun _ => "e1") 0 initialState).2.memory
        = [mkEntry "e1" i ["alpha", "self-learning"] MemorySource.selfLearning 0]
    ∧ (runLearningLoop (envIdem i) cfgOne "r2" (fun _ => "e2") 1
          (runLearningLoop (envIdem i) cfgOne "r1" (fun _ => "e1") 0 initialState).2).2.memory
        = [mkEntry "e1" i ["alpha", "self-learning"] MemorySource.selfLearning 0] := by
  intro i htrim hne hratio
  have hlen : 0 < (jsTrim i).length := by
    rw [htrim]; exact length_pos_of_ne_empty hne
  have hloop1 : topicLoop (envIdem i) 2 (fun _ => "e1") 0 [topicAlpha] [] 0
      = ([mkEntry "e1" i ["alpha", "self-learning"] MemorySource.selfLearning 0], 1, none) := by
    rw [topicLoop_envIdem i hlen]
    rw [htrim, deduplicateInsights_nil]
    rfl
  have hrun1 : runLearningLoop (envIdem i) cfgOne "r1" (fun _ => "e1") 0 initialState
      = (Except.ok 1,
         { memory := [mkEntry "e1" i ["alpha", "self-learning"] MemorySource.selfLearning 0],
           sl := completeRun (startRun initialState.sl "r1" ["alpha"] 0).1 "r1" 1 0 }) :=
    runLearningLoop_success_eq (envIdem i) cfgOne "r1" (fun _ => "e1") 0 initialState
      rfl (by decide) (by decide) rfl (by decide) rfl hloop1
  have hloop2 : topicLoop (envIdem i) 2 (fun _ => "e2") 1 [topicAlpha]
      [mkEntry "e1" i ["alpha", "self-learning"] MemorySource.selfLearning 0] 0
      = ([mkEntry "e1" i ["alpha", "self-learning"] MemorySource.selfLearning 0], 0, none) := by
    rw [topicLoop_envIdem i hlen]
    rw [htrim,
      dedup_self_rejected i hratio
        (mkEntry "e1" i ["alpha", "self-learning"] MemorySource.selfLearning 0)
        (show jsTrim i = i from htrim)]
    rfl
  have hrun2 : runLearningLoop (envIdem i) cfgOne "r2" (fun _ => "e2") 1
      { memory := [mkEntry "e1" i ["alpha", "self-learning"] MemorySource.selfLearning 0],
        sl := completeRun (startRun initialState.sl "r1" ["alpha"] 0).1 "r1" 1 0 }
      = (Except.ok 0,
         { memory := [mkEntry "e1" i ["alpha", "self-learning"] MemorySource.selfLearning 0],
           sl := completeRun
             (startRun (completeRun (startRun initialState.sl "r1" ["alpha"] 0).1 "r1" 1 0)
               "r2" ["alpha"] 1).1 "r2" 0 1 }) :=
    runLearningLoop_success_eq (envIdem i) cfgOne "r2" (fun _ => "e2") 1 _
      rfl (show isRunning (completeRun (startRun initialState.sl "r1" ["alpha"] 0).1 "r1" 1 0)
            = false by with_unfolding_all decide)
      (by decide) rfl (by decide) rfl hloop2
  refine ⟨by rw [hrun1], ?_⟩
  rw [hrun1]
  rw [show ((Except.ok 1,
      { memory := [mkEntry "e1" i ["alpha", "self-learning"] MemorySource.selfLearning 0],
        sl := completeRun (startRun initialState.sl "r1" ["alpha"] 0).1 "r1" 1 0 }) :
      Except String Nat × LoopState).2
    = { memory := [mkEntry "e1" i ["alpha", "self-learning"] MemorySource.selfLearning 0],
        sl := completeRun (startRun initialState.sl "r1" ["alpha"] 0).1 "r1" 1 0 } from rfl]
  rw [hrun2]

/-- C2 witness: with the trim-stable insight "Tokio runtime" (2 of its 2
tokens are significant, 100% ≥ 60%) the double run keeps exactly one
entry. -/
theorem C2_idempotence_witness :
    (runLearningLoop (envIdem "Tokio runtime") cfgOne "r2" (fun _ => "e2") 1
        (runLearningLoop (envIdem "Tokio runtime") cfgOne "r1" (fun _ => "e1") 0
          initialState).2).2.memory
      = [mkEntry "e1" "Tokio runtime" ["alpha", "self-learning"]
          MemorySource.selfLearning 0] :=
  (C2_idempotence_amended "Tokio runtime" (by with_unfolding_all decide)
    (by decide) (by with_unfolding_all decide)).2

set_option maxRecDepth 100000 in
/-- C2 counterexample: with stubs returning the identical insight
"Python GIL gone" on both runs (its only significant token is "python",
1 of 3 tokens, 1/3 < 0.6), the second run saves the insight *again*: two
`MemoryEntry` records are stored in total, not one. -/
theorem C2_idempotence_counterexample :
    ((runLearningLoop (envIdem "Python GIL gone") cfgOne "r2" (fun _ => "e2") 1
        (runLearningLoop (envIdem "Python GIL gone") cfgOne "r1" (fun _ => "e1") 0
          initialState).2).2.memory).length = 2 := by
  with_unfolding_all decide

end Airi
